import Mathlib

/-!
Verification of the `eth` wire-protocol layer (`p2p/eth.py`): the command
schema registry, the request-ceiling policy and the subprotocol facade.

The byte-level RLP framing, the transport and the domain record types
(block headers, receipts, transactions, block bodies) are external
collaborators of this layer; they are modelled at the item-tree boundary
that the schema layer actually drives (which values, in what order and
nesting), with the codec primitives (unsigned big-endian integers,
byte strings, booleans, the hash-or-number variant) given concretely.
-/

namespace EthP2P

/-! ### Codec primitives (the wire value codec's leaf kinds) -/

/-- A byte string is a list of byte values. -/
abbrev Bytes := List Nat

/-- Minimal big-endian byte representation of a natural number, with
explicit fuel (the number itself always suffices, since `n / 256 < n`
for positive `n`).  `0` is represented by the empty byte string. -/
def beBytesAux : Nat → Nat → Bytes
  | 0, _ => []
  | fuel + 1, n => if n = 0 then [] else beBytesAux fuel (n / 256) ++ [n % 256]

/-- Modelled from the spec: the codec's canonical unsigned-integer
serialization (minimal big-endian bytes, no leading zero); the integer
canonicalization itself is delegated to the external codec, which is not
under `src/`. -/
def beBytes (n : Nat) : Bytes := beBytesAux n n

/-- Big-endian interpretation of a byte string as a natural number. -/
def ofBytes (bs : Bytes) : Nat := bs.foldl (fun acc b => acc * 256 + b) 0

/-- Modelled from the spec: serializing a Python `int` under the codec's
unsigned-integer kind; a negative integer does not conform to the shape
(a `SchemaMismatch`), so serialization fails there. -/
def serializeInt (i : Int) : Option Bytes :=
  if i < 0 then none else some (beBytes i.toNat)

/-- Modelled from the spec: deserializing the codec's unsigned-integer
kind; a non-canonical representation (leading zero byte) is rejected. -/
def deserializeInt (bs : Bytes) : Option Int :=
  if bs.head? = some 0 then none else some (ofBytes bs : Nat)

/-- Modelled from the spec: the codec's boolean kind (`true` as the byte
string `[1]`, `false` as the empty byte string). -/
def serializeBool (b : Bool) : Bytes := if b then [1] else []

/-- Inverse of `serializeBool`; anything else is a `SchemaMismatch`. -/
def deserializeBool : Bytes → Option Bool
  | [] => some false
  | [1] => some true
  | _ => none



/-! ### The codec item tree

Modelled from the spec: the external codec serializes nested list/byte
structures; the schema layer only supplies which values in what order and
nesting (spec section 6), so an encoded payload is represented by the item
tree handed to the codec rather than by its final length-prefixed bytes. -/

/-- An RLP-style item: a byte string or an ordered list of items. -/
inductive Item where
  | bytes : Bytes → Item
  | list : List Item → Item

/-- Modelled from the spec: the codec's variant kind `hash-or-number`
(`p2p/sedes.py` is not under `src/`): a value is either an absolute block
number or a 32-byte block hash. -/
inductive HashOrNumber where
  | number (n : Int)
  | hash (h : Bytes)
deriving DecidableEq

/-- Modelled from the spec: serializing a hash-or-number value; the
number arm uses the unsigned-integer kind, the hash arm the byte-string
kind, with no tag and no variable-length prefix on the wire. -/
def serializeHashOrNumber : HashOrNumber → Option Bytes
  | .number n => serializeInt n
  | .hash h => some h

/-- Modelled from the spec: deserializing a hash-or-number value; with no
tag on the wire, a serialization of exactly 32 bytes is read as a block
hash and anything else as an unsigned integer. -/
def deserializeHashOrNumber (bs : Bytes) : Option HashOrNumber :=
  if bs.length = 32 then some (.hash bs)
  else (deserializeInt bs).map .number

/-! ### Opaque domain record types

Modelled from the spec: block headers, transactions, receipts and block
bodies are opaque encodable/decodable value types supplied by other
subsystems (spec section 1); each is carried as the codec item it
serializes to. -/

/-- Modelled from the spec: an opaque block-header record. -/
structure BlockHeader where
  item : Item

/-- Modelled from the spec: an opaque transaction record. -/
structure BaseTransactionFields where
  item : Item

/-- Modelled from the spec: an opaque receipt record. -/
structure Receipt where
  item : Item

/-- Modelled from the spec: an opaque block-body record (transactions
plus ommer headers). -/
structure BlockBody where
  item : Item

/-! ### List combinators used by the shape-driven codec -/

/-- Encode every element of a list, failing if any element fails. -/
def encodeEach {α : Type} (f : α → Option Item) : List α → Option (List Item)
  | [] => some []
  | x :: xs => do
    let y ← f x
    let ys ← encodeEach f xs
    some (y :: ys)

/-- Decode every element of a list, failing if any element fails. -/
def decodeEach {α : Type} (g : Item → Option α) : List Item → Option (List α)
  | [] => some []
  | e :: es => do
    let x ← g e
    let xs ← decodeEach g es
    some (x :: xs)

theorem decodeEach_encodeEach {α : Type} (f : α → Option Item) (g : Item → Option α)
    (hfg : ∀ x y, f x = some y → g y = some x) :
    ∀ (l : List α) (el : List Item), encodeEach f l = some el →
      decodeEach g el = some l := by
  intro l
  induction l with
  | nil =>
    intro el h
    obtain rfl : ([] : List Item) = el := by
      simpa [encodeEach] using h
    rfl
  | cons x xs ih =>
    intro el h
    simp only [encodeEach, Option.bind_eq_bind, Option.bind_eq_some] at h
    obtain ⟨y, hy, ys, hys, heq⟩ := h
    injection heq with heq
    subst heq
    simp only [decodeEach, Option.bind_eq_bind, Option.bind_eq_some]
    exact ⟨x, hfg x y hy, xs, ih ys hys, rfl⟩

/-- Decoding a mapped total encoding recovers the original list. -/
theorem decodeEach_map {α : Type} (f : α → Item) (g : Item → Option α)
    (hfg : ∀ x, g (f x) = some x) :
    ∀ l : List α, decodeEach g (l.map f) = some l := by
  intro l
  induction l with
  | nil => rfl
  | cons x xs ih =>
    simp only [List.map_cons, decodeEach, Option.bind_eq_bind, Option.bind_eq_some]
    exact ⟨x, hfg x, xs, ih, rfl⟩

/-! ### Command payload shapes (the schema registry of `p2p/eth.py`)

Each command class of the source carries a `_cmd_id` and a `structure`;
the structure list is embodied here by a typed payload together with the
encoder and decoder it drives. -/

/-- Payload of `Status` (`eth.py` lines 42-50): five named fields in
order: `protocol_version`, `network_id`, `td`, `best_hash`,
`genesis_hash`. -/
structure StatusData where
  protocol_version : Int
  network_id : Int
  td : Int
  best_hash : Bytes
  genesis_hash : Bytes
deriving DecidableEq

/-- Payload of `GetBlockHeaders` (`eth.py` lines 63-70): four named
fields in order: `block_number_or_hash`, `max_headers`, `skip`,
`reverse`. -/
structure GetBlockHeadersData where
  block_number_or_hash : HashOrNumber
  max_headers : Int
  skip : Int
  reverse : Bool
deriving DecidableEq

/-- Payload of `NewBlock` (`eth.py` lines 91-97): a `block` field (a
header, a transaction list and an ommer-header list) and a
`total_difficulty` field. -/
structure NewBlockData where
  block_header : BlockHeader
  block_transactions : List BaseTransactionFields
  block_uncles : List BlockHeader
  total_difficulty : Int

def Status._cmd_id : Nat := 0
def NewBlockHashes._cmd_id : Nat := 1
def Transactions._cmd_id : Nat := 2
def GetBlockHeaders._cmd_id : Nat := 3
def BlockHeaders._cmd_id : Nat := 4
def GetBlockBodies._cmd_id : Nat := 5
def BlockBodies._cmd_id : Nat := 6
def NewBlock._cmd_id : Nat := 7
def GetNodeData._cmd_id : Nat := 13
def NodeData._cmd_id : Nat := 14
def GetReceipts._cmd_id : Nat := 15
def Receipts._cmd_id : Nat := 16

/-- Encoder driven by the `Status` structure list. -/
def Status.encode_payload (s : StatusData) : Option Item := do
  let pv ← serializeInt s.protocol_version
  let nid ← serializeInt s.network_id
  let td ← serializeInt s.td
  some (.list [.bytes pv, .bytes nid, .bytes td, .bytes s.best_hash, .bytes s.genesis_hash])

/-- Decoder driven by the `Status` structure list. -/
def Status.decode_payload : Item → Option StatusData
  | .list [.bytes pv, .bytes nid, .bytes td, .bytes bh, .bytes gh] => do
    let a ← deserializeInt pv
    let b ← deserializeInt nid
    let c ← deserializeInt td
    some ⟨a, b, c, bh, gh⟩
  | _ => none

/-- Encoder for `NewBlockHashes`: a countable list of (hash, number)
pairs. -/
def NewBlockHashes.encode_payload (l : List (Bytes × Int)) : Option Item :=
  (encodeEach (fun p => (serializeInt p.2).map
    (fun nb => Item.list [.bytes p.1, .bytes nb])) l).map Item.list

/-- Decoder for `NewBlockHashes`. -/
def NewBlockHashes.decode_payload : Item → Option (List (Bytes × Int))
  | .list items =>
    decodeEach (fun it =>
      match it with
      | .list [.bytes h, .bytes nb] => (deserializeInt nb).map (fun n => (h, n))
      | _ => none) items
  | _ => none

/-- Encoder for `Transactions`: a countable list of opaque transaction
records. -/
def Transactions.encode_payload (l : List BaseTransactionFields) : Item :=
  .list (l.map (·.item))

/-- Decoder for `Transactions`. -/
def Transactions.decode_payload : Item → Option (List BaseTransactionFields)
  | .list items => some (items.map BaseTransactionFields.mk)
  | _ => none

/-- Encoder driven by the `GetBlockHeaders` structure list: the four
fields in their declared order. -/
def GetBlockHeaders.encode_payload (d : GetBlockHeadersData) : Option Item := do
  let b ← serializeHashOrNumber d.block_number_or_hash
  let mh ← serializeInt d.max_headers
  let sk ← serializeInt d.skip
  some (.list [.bytes b, .bytes mh, .bytes sk, .bytes (serializeBool d.reverse)])

/-- Decoder driven by the `GetBlockHeaders` structure list. -/
def GetBlockHeaders.decode_payload : Item → Option GetBlockHeadersData
  | .list [.bytes b, .bytes mh, .bytes sk, .bytes rv] => do
    let hn ← deserializeHashOrNumber b
    let m ← deserializeInt mh
    let s ← deserializeInt sk
    let r ← deserializeBool rv
    some ⟨hn, m, s, r⟩
  | _ => none

/-- Encoder for `BlockHeaders`: a countable list of opaque header
records. -/
def BlockHeaders.encode_payload (l : List BlockHeader) : Item :=
  .list (l.map (·.item))

/-- Decoder for `BlockHeaders`. -/
def BlockHeaders.decode_payload : Item → Option (List BlockHeader)
  | .list items => some (items.map BlockHeader.mk)
  | _ => none

/-- Typed extraction step of `BlockHeaders` (`eth.py` lines 77-78): the
generic decoded list is turned into a fixed-size ordered collection (the
source's `tuple(msg)`). -/
def BlockHeaders.extract_headers (msg : List BlockHeader) : Array BlockHeader :=
  msg.toArray

/-- Encoder for a countable list of byte strings, the shape shared by
`GetBlockBodies`, `GetNodeData`, `NodeData` and `GetReceipts`. -/
def encodeBinaryList (l : List Bytes) : Item :=
  .list (l.map .bytes)

/-- Decoder for a countable list of byte strings. -/
def decodeBinaryList : Item → Option (List Bytes)
  | .list items =>
    decodeEach (fun it =>
      match it with
      | .bytes b => some b
      | _ => none) items
  | _ => none

def GetBlockBodies.encode_payload (l : List Bytes) : Item := encodeBinaryList l

def GetBlockBodies.decode_payload (it : Item) : Option (List Bytes) := decodeBinaryList it

def GetNodeData.encode_payload (l : List Bytes) : Item := encodeBinaryList l

def GetNodeData.decode_payload (it : Item) : Option (List Bytes) := decodeBinaryList it

def NodeData.encode_payload (l : List Bytes) : Item := encodeBinaryList l

def NodeData.decode_payload (it : Item) : Option (List Bytes) := decodeBinaryList it

def GetReceipts.encode_payload (l : List Bytes) : Item := encodeBinaryList l

def GetReceipts.decode_payload (it : Item) : Option (List Bytes) := decodeBinaryList it

/-- Encoder for `BlockBodies`: a countable list of opaque block-body
records. -/
def BlockBodies.encode_payload (l : List BlockBody) : Item :=
  .list (l.map (·.item))

/-- Decoder for `BlockBodies`. -/
def BlockBodies.decode_payload : Item → Option (List BlockBody)
  | .list items => some (items.map BlockBody.mk)
  | _ => none

/-- Encoder driven by the `NewBlock` structure list. -/
def NewBlock.encode_payload (d : NewBlockData) : Option Item := do
  let td ← serializeInt d.total_difficulty
  some (.list [.list [d.block_header.item,
                      .list (d.block_transactions.map (·.item)),
                      .list (d.block_uncles.map (·.item))],
               .bytes td])

/-- Decoder driven by the `NewBlock` structure list. -/
def NewBlock.decode_payload : Item → Option NewBlockData
  | .list [.list [hd, .list txs, .list uncles], .bytes td] => do
    let t ← deserializeInt td
    some ⟨⟨hd⟩, txs.map BaseTransactionFields.mk, uncles.map BlockHeader.mk, t⟩
  | _ => none

/-- Encoder for `Receipts`: a countable list of countable lists of
opaque receipt records. -/
def Receipts.encode_payload (l : List (List Receipt)) : Item :=
  .list (l.map (fun inner => Item.list (inner.map (·.item))))

/-- Decoder for `Receipts`. -/
def Receipts.decode_payload : Item → Option (List (List Receipt))
  | .list items =>
    decodeEach (fun it =>
      match it with
      | .list inner => some (inner.map Receipt.mk)
      | _ => none) items
  | _ => none

/-! ### Constants, registry and protocol descriptor (`eth.py` 34-39 and 120-128) -/

def MAX_STATE_FETCH : Int := 384
def MAX_BODIES_FETCH : Int := 128
def MAX_RECEIPTS_FETCH : Int := 256
def MAX_HEADERS_FETCH : Int := 192

/-- An entry of the command registry: the command class (identified by
its name) and its `_cmd_id`. -/
structure CommandInfo where
  cls : String
  cmd_id : Nat
deriving DecidableEq

def ETHProtocol.protocol_name : String := "eth"

def ETHProtocol.version : Nat := 63

def ETHProtocol.cmd_length : Nat := 17

/-- The `_commands` registry of `ETHProtocol` (`eth.py` lines 123-126),
in source order; `BlockHeaders` is listed twice there. -/
def ETHProtocol._commands : List CommandInfo :=
  [⟨"Status", Status._cmd_id⟩,
   ⟨"NewBlockHashes", NewBlockHashes._cmd_id⟩,
   ⟨"Transactions", Transactions._cmd_id⟩,
   ⟨"GetBlockHeaders", GetBlockHeaders._cmd_id⟩,
   ⟨"BlockHeaders", BlockHeaders._cmd_id⟩,
   ⟨"BlockHeaders", BlockHeaders._cmd_id⟩,
   ⟨"GetBlockBodies", GetBlockBodies._cmd_id⟩,
   ⟨"BlockBodies", BlockBodies._cmd_id⟩,
   ⟨"NewBlock", NewBlock._cmd_id⟩,
   ⟨"GetNodeData", GetNodeData._cmd_id⟩,
   ⟨"NodeData", NodeData._cmd_id⟩,
   ⟨"GetReceipts", GetReceipts._cmd_id⟩,
   ⟨"Receipts", Receipts._cmd_id⟩]

/-! ### The subprotocol facade (`ETHProtocol`, `eth.py` lines 120-205)

The transport's `send(header, body)` is modelled by appending the
(header, body) pair to the connection's list of messages handed to the
transport; the wire header is modelled from the spec (section 6): it
carries the absolute command ID, `base offset + identifier`, the rest of
the framing being the transport's business. -/

/-- Modelled from the spec: the header of an outbound message; it
carries the absolute command ID (`base_offset + identifier`). -/
structure MsgHeader where
  cmd_id : Nat
deriving DecidableEq

/-- Modelled from the spec: the per-connection peer context holding the
connection's configured network identifier. -/
structure Peer where
  network_id : Int

/-- Modelled from the spec: the supplied chain head — its total
difficulty, head block hash and genesis hash. -/
structure ChainInfo where
  total_difficulty : Int
  block_hash : Bytes
  genesis_hash : Bytes

/-- Error taxonomy of this layer (spec section 7): `CeilingExceeded`
from the request ceiling policy (the source's `ValueError`),
`SchemaMismatch` from the codec. -/
inductive ProtoError where
  | CeilingExceeded
  | SchemaMismatch
deriving DecidableEq

/-- The eth subprotocol facade bound to one connection: the peer
context, the command-ID base offset assigned by the multiplexing
transport, and the messages handed to the transport so far (most recent
last). -/
structure ETHProtocol where
  peer : Peer
  cmd_id_offset : Nat
  sent : List (MsgHeader × Item)

/-- Hand one framed message to the transport. -/
def ETHProtocol.send (st : ETHProtocol) (header : MsgHeader) (body : Item) : ETHProtocol :=
  { st with sent := st.sent ++ [(header, body)] }

/-- Facade operation `send_handshake` (`eth.py` lines 130-140): builds
the `Status` payload from the protocol version, the peer's network ID
and the supplied chain head, then encodes and sends it. -/
def ETHProtocol.send_handshake (st : ETHProtocol) (head_info : ChainInfo) :
    Except ProtoError ETHProtocol :=
  let resp : StatusData :=
    { protocol_version := (ETHProtocol.version : Int)
      network_id := st.peer.network_id
      td := head_info.total_difficulty
      best_hash := head_info.block_hash
      genesis_hash := head_info.genesis_hash }
  match Status.encode_payload resp with
  | none => .error .SchemaMismatch
  | some body => .ok (st.send ⟨st.cmd_id_offset + Status._cmd_id⟩ body)

/-- Facade operation `send_get_node_data` (`eth.py` lines 142-145): no
ceiling check, encode and send. -/
def ETHProtocol.send_get_node_data (st : ETHProtocol) (node_hashes : List Bytes) :
    Except ProtoError ETHProtocol :=
  .ok (st.send ⟨st.cmd_id_offset + GetNodeData._cmd_id⟩
        (GetNodeData.encode_payload node_hashes))

/-- Facade operation `send_node_data` (`eth.py` lines 147-150). -/
def ETHProtocol.send_node_data (st : ETHProtocol) (nodes : List Bytes) :
    Except ProtoError ETHProtocol :=
  .ok (st.send ⟨st.cmd_id_offset + NodeData._cmd_id⟩
        (NodeData.encode_payload nodes))

/-- Facade operation `send_get_block_headers` (`eth.py` lines 152-175):
raises when `max_headers` exceeds `MAX_HEADERS_FETCH`, otherwise builds
the four-field payload, encodes it and sends it. -/
def ETHProtocol.send_get_block_headers (st : ETHProtocol)
    (block_number_or_hash : HashOrNumber) (max_headers : Int) (skip : Int)
    (reverse : Bool) : Except ProtoError ETHProtocol :=
  if max_headers > MAX_HEADERS_FETCH then .error .CeilingExceeded
  else
    match GetBlockHeaders.encode_payload
        ⟨block_number_or_hash, max_headers, skip, reverse⟩ with
    | none => .error .SchemaMismatch
    | some body => .ok (st.send ⟨st.cmd_id_offset + GetBlockHeaders._cmd_id⟩ body)

/-- Facade operation `send_block_headers` (`eth.py` lines 177-180). -/
def ETHProtocol.send_block_headers (st : ETHProtocol) (headers : List BlockHeader) :
    Except ProtoError ETHProtocol :=
  .ok (st.send ⟨st.cmd_id_offset + BlockHeaders._cmd_id⟩
        (BlockHeaders.encode_payload headers))

/-- Facade operation `send_get_block_bodies` (`eth.py` lines 182-185):
no ceiling check, encode and send. -/
def ETHProtocol.send_get_block_bodies (st : ETHProtocol) (block_hashes : List Bytes) :
    Except ProtoError ETHProtocol :=
  .ok (st.send ⟨st.cmd_id_offset + GetBlockBodies._cmd_id⟩
        (GetBlockBodies.encode_payload block_hashes))

/-- Facade operation `send_block_bodies` (`eth.py` lines 187-190). -/
def ETHProtocol.send_block_bodies (st : ETHProtocol) (blocks : List BlockBody) :
    Except ProtoError ETHProtocol :=
  .ok (st.send ⟨st.cmd_id_offset + BlockBodies._cmd_id⟩
        (BlockBodies.encode_payload blocks))

/-- Facade operation `send_get_receipts` (`eth.py` lines 192-195): no
ceiling check, encode and send. -/
def ETHProtocol.send_get_receipts (st : ETHProtocol) (block_hashes : List Bytes) :
    Except ProtoError ETHProtocol :=
  .ok (st.send ⟨st.cmd_id_offset + GetReceipts._cmd_id⟩
        (GetReceipts.encode_payload block_hashes))

/-- Facade operation `send_receipts` (`eth.py` lines 197-200). -/
def ETHProtocol.send_receipts (st : ETHProtocol) (receipts : List (List Receipt)) :
    Except ProtoError ETHProtocol :=
  .ok (st.send ⟨st.cmd_id_offset + Receipts._cmd_id⟩
        (Receipts.encode_payload receipts))

/-- Facade operation `send_transactions` (`eth.py` lines 202-205). -/
def ETHProtocol.send_transactions (st : ETHProtocol)
    (transactions : List BaseTransactionFields) : Except ProtoError ETHProtocol :=
  .ok (st.send ⟨st.cmd_id_offset + Transactions._cmd_id⟩
        (Transactions.encode_payload transactions))

/-! ### Wellformedness and concrete fixtures -/

/-- A hash-or-number value conforming to the declared shape whose wire
form is unambiguous: the hash arm is exactly 32 bytes (as declared), and
the number arm serializes to fewer than 32 bytes (`n < 256 ^ 31`). -/
def WfHashOrNumber : HashOrNumber → Prop
  | .number n => n < (256 : Int) ^ 31
  | .hash h => h.length = 32

/-- A concrete connection fixture: network ID 1, command-ID base offset
16, nothing sent yet. -/
def st0 : ETHProtocol := ⟨⟨1⟩, 16, []⟩

/-- A concrete chain-head fixture. -/
def ci0 : ChainInfo := ⟨5, List.replicate 32 7, List.replicate 32 9⟩

/-- Projection of a successful facade result (fixture default on
error). -/
def okState (r : Except ProtoError ETHProtocol) : ETHProtocol :=
  match r with
  | .ok s => s
  | .error _ => st0

/-! ### Facts about the integer codec primitive -/

theorem beBytesAux_irrel :
    ∀ fuel fuel' n, n ≤ fuel → n ≤ fuel' →
      beBytesAux fuel n = beBytesAux fuel' n := by
  intro fuel
  induction fuel with
  | zero =>
    intro fuel' n hn _
    interval_cases n
    cases fuel' <;> simp [beBytesAux]
  | succ f ih =>
    intro fuel' n hn hn'
    cases fuel' with
    | zero =>
      interval_cases n
      simp [beBytesAux]
    | succ f' =>
      by_cases h0 : n = 0
      · simp [beBytesAux, h0]
      · have hdiv : n / 256 < n := Nat.div_lt_self (Nat.pos_of_ne_zero h0) (by norm_num)
        have h1 : n / 256 ≤ f := by omega
        have h2 : n / 256 ≤ f' := by omega
        simp only [beBytesAux, if_neg h0]
        rw [ih f' (n / 256) h1 h2]

theorem beBytes_eq (n : Nat) (h : n ≠ 0) :
    beBytes n = beBytes (n / 256) ++ [n % 256] := by
  obtain ⟨m, hm⟩ : ∃ m, n = m + 1 := ⟨n - 1, by omega⟩
  subst hm
  have hdiv : (m + 1) / 256 < m + 1 := Nat.div_lt_self (by omega) (by norm_num)
  show beBytesAux (m + 1) (m + 1) = beBytes ((m + 1) / 256) ++ [(m + 1) % 256]
  simp only [beBytesAux, if_neg (Nat.succ_ne_zero m)]
  rw [beBytesAux_irrel m ((m + 1) / 256) ((m + 1) / 256) (by omega) le_rfl]
  rfl

theorem beBytes_zero : beBytes 0 = [] := rfl

theorem ofBytes_append_single (bs : Bytes) (b : Nat) :
    ofBytes (bs ++ [b]) = ofBytes bs * 256 + b := by
  simp [ofBytes, List.foldl_append]

/-- The big-endian serialization round-trips through interpretation. -/
theorem ofBytes_beBytes (n : Nat) : ofBytes (beBytes n) = n := by
  induction n using Nat.strong_induction_on with
  | _ n ih =>
    by_cases h0 : n = 0
    · simp [h0, beBytes_zero, ofBytes]
    · have hdiv : n / 256 < n := Nat.div_lt_self (Nat.pos_of_ne_zero h0) (by norm_num)
      rw [beBytes_eq n h0, ofBytes_append_single, ih (n / 256) hdiv]
      omega

/-- A positive number serializes to a nonempty byte string whose first
byte is nonzero (canonical form). -/
theorem beBytes_head (n : Nat) (h : 0 < n) :
    ∃ b t, beBytes n = b :: t ∧ b ≠ 0 := by
  induction n using Nat.strong_induction_on with
  | _ n ih =>
    by_cases hsmall : n < 256
    · have : n / 256 = 0 := Nat.div_eq_of_lt hsmall
      rw [beBytes_eq n (by omega), this, beBytes_zero]
      exact ⟨n % 256, [], by simp, by omega⟩
    · have hpos : 0 < n / 256 := Nat.div_pos (by omega) (by norm_num)
      have hdiv : n / 256 < n := Nat.div_lt_self (by omega) (by norm_num)
      obtain ⟨b, t, hbt, hb⟩ := ih (n / 256) hdiv hpos
      rw [beBytes_eq n (by omega), hbt]
      exact ⟨b, t ++ [n % 256], by simp, hb⟩

/-- Round trip of the unsigned-integer codec primitive on any
non-negative integer. -/
theorem deserializeInt_serializeInt (i : Int) (h : 0 ≤ i) :
    ∀ bs, serializeInt i = some bs → deserializeInt bs = some i := by
  intro bs hbs
  rw [serializeInt, if_neg (by omega)] at hbs
  obtain rfl : beBytes i.toNat = bs := by injection hbs
  rw [deserializeInt]
  rcases Nat.eq_zero_or_pos i.toNat with h0 | hpos
  · rw [h0, beBytes_zero]
    simp [ofBytes]
    omega
  · obtain ⟨b, t, hbt, hb⟩ := beBytes_head i.toNat hpos
    rw [hbt]
    have : (b :: t).head? ≠ some 0 := by simp [hb]
    rw [if_neg this, ← hbt, ofBytes_beBytes]
    congr 1
    omega

/-- The serialization of `n < 256 ^ k` takes at most `k` bytes. -/
theorem beBytes_length_le (k : Nat) :
    ∀ n, n < 256 ^ k → (beBytes n).length ≤ k := by
  induction k with
  | zero =>
    intro n hn
    interval_cases n
    simp [beBytes_zero]
  | succ k ih =>
    intro n hn
    by_cases h0 : n = 0
    · simp [h0, beBytes_zero]
    · rw [beBytes_eq n h0]
      have : n / 256 < 256 ^ k := by
        have h256 : n / 256 * 256 ≤ n := Nat.div_mul_le_self n 256
        have : 256 ^ (k + 1) = 256 * 256 ^ k := by ring
        omega
      simp only [List.length_append, List.length_cons, List.length_nil]
      have := ih (n / 256) this
      omega

/-- The serialization of `256 ^ k` is a one followed by `k` zero bytes
(in particular it is exactly `k + 1` bytes long). -/
theorem beBytes_pow (k : Nat) : beBytes (256 ^ k) = 1 :: List.replicate k 0 := by
  induction k with
  | zero => rw [pow_zero, beBytes_eq 1 one_ne_zero]; rfl
  | succ k ih =>
    have hne : 256 ^ (k + 1) ≠ 0 := by positivity
    rw [beBytes_eq _ hne]
    have hd : 256 ^ (k + 1) / 256 = 256 ^ k := by
      rw [pow_succ, Nat.mul_div_cancel _ (by norm_num)]
    have hm : 256 ^ (k + 1) % 256 = 0 := by
      rw [pow_succ, Nat.mul_mod_left]
    rw [hd, hm, ih, List.replicate_succ']
    rfl

/-! ### Helper facts about the composite codec kinds -/

theorem serializeInt_eq_some {i : Int} {bs : Bytes} (h : serializeInt i = some bs) :
    0 ≤ i ∧ bs = beBytes i.toNat ∧ deserializeInt bs = some i := by
  rw [serializeInt] at h
  by_cases hneg : i < 0
  · rw [if_pos hneg] at h
    cases h
  · rw [if_neg hneg] at h
    injection h with h
    subst h
    exact ⟨by omega, rfl,
      deserializeInt_serializeInt i (by omega) _ (by rw [serializeInt, if_neg hneg])⟩

theorem deserializeBool_serializeBool (b : Bool) :
    deserializeBool (serializeBool b) = some b := by
  cases b <;> rfl

theorem mk_item_block_header (h : BlockHeader) : BlockHeader.mk h.item = h := rfl

theorem mk_item_tx (t : BaseTransactionFields) :
    BaseTransactionFields.mk t.item = t := rfl

theorem mk_item_receipt (r : Receipt) : Receipt.mk r.item = r := rfl

theorem mk_item_block_body (b : BlockBody) : BlockBody.mk b.item = b := rfl

theorem map_mk_map_item_headers (l : List BlockHeader) :
    (l.map (·.item)).map BlockHeader.mk = l := by
  simp [List.map_map, Function.comp_def, mk_item_block_header]

theorem map_mk_map_item_txs (l : List BaseTransactionFields) :
    (l.map (·.item)).map BaseTransactionFields.mk = l := by
  simp [List.map_map, Function.comp_def, mk_item_tx]

theorem map_mk_map_item_receipts (l : List Receipt) :
    (l.map (·.item)).map Receipt.mk = l := by
  simp [List.map_map, Function.comp_def, mk_item_receipt]

theorem map_mk_map_item_bodies (l : List BlockBody) :
    (l.map (·.item)).map BlockBody.mk = l := by
  simp [List.map_map, Function.comp_def, mk_item_block_body]

theorem deserializeHashOrNumber_serialize {v : HashOrNumber} {bs : Bytes}
    (hwf : WfHashOrNumber v) (h : serializeHashOrNumber v = some bs) :
    deserializeHashOrNumber bs = some v := by
  cases v with
  | hash h32 =>
    injection h with h
    subst h
    have hlen32 : h32.length = 32 := hwf
    rw [deserializeHashOrNumber, if_pos hlen32]
  | number n =>
    rw [serializeHashOrNumber] at h
    obtain ⟨hn, hbs, hdes⟩ := serializeInt_eq_some h
    have hwfn : n < (256 : Int) ^ 31 := hwf
    have hlt : n.toNat < 256 ^ 31 := by
      have h1 : ((n.toNat : Nat) : Int) < (((256 : Nat) ^ 31 : Nat) : Int) := by
        rw [Int.toNat_of_nonneg hn]
        calc n < (256 : Int) ^ 31 := hwfn
          _ = (((256 : Nat) ^ 31 : Nat) : Int) := by norm_cast
      exact_mod_cast h1
    have hlen : bs.length ≤ 31 := hbs ▸ beBytes_length_le 31 n.toNat hlt
    have hne : ¬ bs.length = 32 := by omega
    rw [deserializeHashOrNumber, if_neg hne, hdes]
    rfl

/-! ### Claims about the command registry -/

/-- C2 counterexample: the registry of `ETHProtocol` has 12 distinct
Command Kinds, yet `cmd_length` is 17 and the identifier 8 (below the
count) is assigned to no Command Kind, so the identifiers are not
contiguous from 0 up to count minus 1 and `cmd_length` is not the
count. -/
theorem cmd_ids_not_contiguous :
    ETHProtocol.cmd_length ≠ ETHProtocol._commands.dedup.length ∧
    8 < ETHProtocol._commands.dedup.length ∧
    ((ETHProtocol._commands.map CommandInfo.cmd_id).contains 8) = false := by
  decide

/-- C2 (amended): within the protocol version every registered command
identifier lies strictly below `cmd_length`; `cmd_length` is 17, one
more than the largest identifier (16) rather than the count of Command
Kinds, and the identifiers 8 to 12 are left vacant. -/
theorem cmd_ids_bounded_by_cmd_length :
    (ETHProtocol._commands.all (fun c => c.cmd_id < ETHProtocol.cmd_length)) = true ∧
    ETHProtocol.cmd_length = 17 ∧
    ((ETHProtocol._commands.map CommandInfo.cmd_id).contains 16) = true ∧
    (((List.range 5).map (fun i => 8 + i)).all
      (fun i => !((ETHProtocol._commands.map CommandInfo.cmd_id).contains i))) = true ∧
    ((ETHProtocol._commands.map CommandInfo.cmd_id).foldl Nat.max 0) + 1 =
      ETHProtocol.cmd_length := by
  decide

/-- C9: every command class registered in `ETHProtocol._commands` has an
identifier strictly below `cmd_length` (17); any two registry entries
sharing an identifier are the same class; the registry holds 13 entries
of 12 distinct classes, its one repeated entry being `BlockHeaders`,
listed twice with the same identifier 4, so no identifier is claimed by
two different shapes. -/
theorem commands_registry_consistent :
    (ETHProtocol._commands.all (fun c => c.cmd_id < ETHProtocol.cmd_length)) = true ∧
    (ETHProtocol._commands.all (fun c => ETHProtocol._commands.all
      (fun d => (c.cmd_id != d.cmd_id) || (c.cls == d.cls)))) = true ∧
    ETHProtocol._commands.length = 13 ∧
    ETHProtocol._commands.dedup.length = 12 ∧
    ETHProtocol._commands.count ⟨"BlockHeaders", 4⟩ = 2 ∧
    (ETHProtocol._commands.all
      (fun c => (c.cls != "BlockHeaders") || (c.cmd_id == 4))) = true := by
  decide

/-- C8: the typed extraction step of `BlockHeaders` turns any decoded
header list into a fixed-size ordered collection holding exactly the
same header values in the same order (and hence of the same size). -/
theorem extract_headers_preserves_order (msg : List BlockHeader) :
    (BlockHeaders.extract_headers msg).toList = msg ∧
    (BlockHeaders.extract_headers msg).size = msg.length := by
  simp [BlockHeaders.extract_headers]

/-- C7: the block-bodies, receipts and node-data request operations
perform no ceiling check: for every list of hashes, of any length
(including lengths above the ceilings 128, 256 and 384), each operation
succeeds, encodes and sends, and never fails with `CeilingExceeded`. -/
theorem hash_list_requests_not_ceiling_checked (st : ETHProtocol) (hashes : List Bytes) :
    (st.send_get_block_bodies hashes =
        .ok (st.send ⟨st.cmd_id_offset + GetBlockBodies._cmd_id⟩
          (GetBlockBodies.encode_payload hashes)) ∧
      st.send_get_block_bodies hashes ≠ .error .CeilingExceeded) ∧
    (st.send_get_receipts hashes =
        .ok (st.send ⟨st.cmd_id_offset + GetReceipts._cmd_id⟩
          (GetReceipts.encode_payload hashes)) ∧
      st.send_get_receipts hashes ≠ .error .CeilingExceeded) ∧
    (st.send_get_node_data hashes =
        .ok (st.send ⟨st.cmd_id_offset + GetNodeData._cmd_id⟩
          (GetNodeData.encode_payload hashes)) ∧
      st.send_get_node_data hashes ≠ .error .CeilingExceeded) := by
  refine ⟨⟨rfl, ?_⟩, ⟨rfl, ?_⟩, ⟨rfl, ?_⟩⟩ <;>
    simp [ETHProtocol.send_get_block_bodies, ETHProtocol.send_get_receipts,
      ETHProtocol.send_get_node_data]

/-! ### Claims about the headers-request ceiling -/

theorem send_get_block_headers_encodes (st : ETHProtocol) (bnh : HashOrNumber)
    (max_headers skip : Int) (reverse : Bool)
    (hmh0 : 0 ≤ max_headers) (hmh : max_headers ≤ 192) (hsk : 0 ≤ skip)
    (hb : ∀ n, bnh = .number n → 0 ≤ n) :
    ∃ body, GetBlockHeaders.encode_payload ⟨bnh, max_headers, skip, reverse⟩ = some body ∧
      st.send_get_block_headers bnh max_headers skip reverse =
        .ok (st.send ⟨st.cmd_id_offset + GetBlockHeaders._cmd_id⟩ body) := by
  obtain ⟨bb, hbb⟩ : ∃ bb, serializeHashOrNumber bnh = some bb := by
    cases bnh with
    | number n =>
      have hn : 0 ≤ n := hb n rfl
      exact ⟨_, by rw [serializeHashOrNumber, serializeInt, if_neg (by omega)]⟩
    | hash h => exact ⟨h, rfl⟩
  have hmhs : serializeInt max_headers = some (beBytes max_headers.toNat) := by
    rw [serializeInt, if_neg (by omega)]
  have hsks : serializeInt skip = some (beBytes skip.toNat) := by
    rw [serializeInt, if_neg (by omega)]
  have henc : GetBlockHeaders.encode_payload ⟨bnh, max_headers, skip, reverse⟩ =
      some (.list [.bytes bb, .bytes (beBytes max_headers.toNat),
        .bytes (beBytes skip.toNat), .bytes (serializeBool reverse)]) := by
    simp [GetBlockHeaders.encode_payload, hbb, hmhs, hsks]
  refine ⟨_, henc, ?_⟩
  have hnotc : ¬ max_headers > MAX_HEADERS_FETCH := by
    rw [MAX_HEADERS_FETCH]
    omega
  rw [ETHProtocol.send_get_block_headers, if_neg hnotc, henc]

theorem send_get_block_headers_not_ceiling (st : ETHProtocol) (bnh : HashOrNumber)
    (max_headers skip : Int) (reverse : Bool) (h : max_headers ≤ 192) :
    st.send_get_block_headers bnh max_headers skip reverse ≠ .error .CeilingExceeded := by
  have hnotc : ¬ max_headers > MAX_HEADERS_FETCH := by
    rw [MAX_HEADERS_FETCH]
    omega
  rw [ETHProtocol.send_get_block_headers, if_neg hnotc]
  cases henc : GetBlockHeaders.encode_payload ⟨bnh, max_headers, skip, reverse⟩ <;> simp

/-- C1: `send_get_block_headers` fails with `CeilingExceeded` exactly
when `max_headers` exceeds 192: above the ceiling the call returns the
`CeilingExceeded` error (so no request state is produced and nothing is
handed to the transport), a `CeilingExceeded` failure implies the bound
was exceeded, and at `max_headers = 192` (with arguments conforming to
the shape) the call succeeds, encoding the payload and sending it as a
header+body pair whose header carries the absolute command ID. -/
theorem send_get_block_headers_ceiling (st : ETHProtocol) (bnh : HashOrNumber)
    (max_headers skip : Int) (reverse : Bool) :
    (192 < max_headers →
      st.send_get_block_headers bnh max_headers skip reverse = .error .CeilingExceeded) ∧
    (st.send_get_block_headers bnh max_headers skip reverse = .error .CeilingExceeded →
      192 < max_headers) ∧
    (max_headers = 192 → 0 ≤ skip → (∀ n, bnh = .number n → 0 ≤ n) →
      ∃ body, GetBlockHeaders.encode_payload ⟨bnh, max_headers, skip, reverse⟩ = some body ∧
        st.send_get_block_headers bnh max_headers skip reverse =
          .ok (st.send ⟨st.cmd_id_offset + GetBlockHeaders._cmd_id⟩ body)) := by
  refine ⟨?_, ?_, ?_⟩
  · intro h
    rw [ETHProtocol.send_get_block_headers,
      if_pos (show max_headers > MAX_HEADERS_FETCH from h)]
  · intro heq
    by_contra hnot
    exact send_get_block_headers_not_ceiling st bnh max_headers skip reverse
      (by omega) heq
  · intro h192 hsk hb
    exact send_get_block_headers_encodes st bnh max_headers skip reverse
      (by omega) (by omega) hsk hb

/-- C1 witness: at `max_headers = 193` the call fails with
`CeilingExceeded`; a `CeilingExceeded` failure at 193 certifies the
bound was exceeded; at `max_headers = 192` the call succeeds with a
header+body pair. -/
theorem send_get_block_headers_ceiling_witness :
    (ETHProtocol.send_get_block_headers st0 (.number 1) 193 0 false =
      .error .CeilingExceeded) ∧
    ((192 : Int) < 193) ∧
    (∃ body, GetBlockHeaders.encode_payload ⟨.number 1, 192, 0, false⟩ = some body ∧
      ETHProtocol.send_get_block_headers st0 (.number 1) 192 0 false =
        .ok (st0.send ⟨st0.cmd_id_offset + GetBlockHeaders._cmd_id⟩ body)) := by
  refine ⟨(send_get_block_headers_ceiling st0 (.number 1) 193 0 false).1 (by norm_num),
    (send_get_block_headers_ceiling st0 (.number 1) 193 0 false).2.1 rfl,
    (send_get_block_headers_ceiling st0 (.number 1) 192 0 false).2.2 rfl (by norm_num)
      (fun n hn => by injection hn with hn; omega)⟩

/-- C10 counterexample: `max_headers = -1` is below the ceiling, yet the
call does not proceed without error: the codec rejects a negative value
for the unsigned `max_headers` field, so the call fails with
`SchemaMismatch`. -/
theorem negative_max_headers_errors :
    ((-1 : Int) ≤ 192) ∧
    ETHProtocol.send_get_block_headers st0 (.number 0) (-1) 0 false =
      .error .SchemaMismatch :=
  ⟨by norm_num, rfl⟩

/-- C10 (amended): `send_get_block_headers` itself validates only the
upper bound: for every `max_headers ≤ 192` it never fails with
`CeilingExceeded`, and for every `0 ≤ max_headers ≤ 192` with arguments
conforming to the shape it encodes and sends without error; a negative
`max_headers` or `skip` is instead rejected by the codec's unsigned
integer kind (`SchemaMismatch`), not by any ceiling check. -/
theorem send_get_block_headers_upper_bound_only (st : ETHProtocol) (bnh : HashOrNumber)
    (max_headers skip : Int) (reverse : Bool) :
    (max_headers ≤ 192 →
      st.send_get_block_headers bnh max_headers skip reverse ≠ .error .CeilingExceeded) ∧
    (0 ≤ max_headers → max_headers ≤ 192 → 0 ≤ skip → (∀ n, bnh = .number n → 0 ≤ n) →
      ∃ st', st.send_get_block_headers bnh max_headers skip reverse = .ok st') := by
  refine ⟨fun h => send_get_block_headers_not_ceiling st bnh max_headers skip reverse h,
    fun h0 h192 hsk hb => ?_⟩
  obtain ⟨body, -, hok⟩ :=
    send_get_block_headers_encodes st bnh max_headers skip reverse h0 h192 hsk hb
  exact ⟨_, hok⟩

/-- C10 witness: at `max_headers = 0` the call raises no
`CeilingExceeded` and succeeds. -/
theorem send_get_block_headers_upper_bound_only_witness :
    (ETHProtocol.send_get_block_headers st0 (.number 0) 0 0 false ≠
      .error .CeilingExceeded) ∧
    (∃ st', ETHProtocol.send_get_block_headers st0 (.number 0) 0 0 false = .ok st') :=
  ⟨(send_get_block_headers_upper_bound_only st0 (.number 0) 0 0 false).1 (by norm_num),
    (send_get_block_headers_upper_bound_only st0 (.number 0) 0 0 false).2 (by norm_num)
      (by norm_num) (by norm_num) (fun n hn => by injection hn with hn; omega)⟩

/-! ### Claims about payload shapes and the handshake -/

/-- C4: the `GetBlockHeaders` payload consists of exactly the four
fields `(block_number_or_hash, max_headers, skip, reverse)` in that
order — every successful encoding is the four serialized fields in that
order with no extra prefix — and encoding the value `(42, 10, 0, false)`
then decoding the resulting body reproduces the same four field values
in the same order. -/
theorem getblockheaders_payload_shape :
    (∀ (d : GetBlockHeadersData) (e : Item), GetBlockHeaders.encode_payload d = some e →
      ∃ b1 b2 b3, e = .list [.bytes b1, .bytes b2, .bytes b3,
          .bytes (serializeBool d.reverse)] ∧
        serializeHashOrNumber d.block_number_or_hash = some b1 ∧
        serializeInt d.max_headers = some b2 ∧
        serializeInt d.skip = some b3) ∧
    GetBlockHeaders.encode_payload ⟨.number 42, 10, 0, false⟩ =
      some (.list [.bytes [42], .bytes [10], .bytes [], .bytes []]) ∧
    GetBlockHeaders.decode_payload (.list [.bytes [42], .bytes [10], .bytes [], .bytes []]) =
      some ⟨.number 42, 10, 0, false⟩ := by
  refine ⟨?_, rfl, rfl⟩
  intro d e he
  cases hb : serializeHashOrNumber d.block_number_or_hash with
  | none => simp [GetBlockHeaders.encode_payload, hb] at he
  | some b1 =>
    cases hm : serializeInt d.max_headers with
    | none => simp [GetBlockHeaders.encode_payload, hb, hm] at he
    | some b2 =>
      cases hs : serializeInt d.skip with
      | none => simp [GetBlockHeaders.encode_payload, hb, hm, hs] at he
      | some b3 =>
        have he' : e = .list [.bytes b1, .bytes b2, .bytes b3,
            .bytes (serializeBool d.reverse)] := by
          simp [GetBlockHeaders.encode_payload, hb, hm, hs] at he
          exact he.symm
        exact ⟨b1, b2, b3, he', rfl, rfl, rfl⟩

/-- C4 witness: the general shape fact applied at the scenario value
`(42, 10, 0, false)`. -/
theorem getblockheaders_payload_shape_witness :
    ∃ b1 b2 b3, (Item.list [.bytes [42], .bytes [10], .bytes [], .bytes []]) =
      .list [.bytes b1, .bytes b2, .bytes b3, .bytes (serializeBool false)] ∧
      serializeHashOrNumber (.number 42) = some b1 ∧
      serializeInt 10 = some b2 ∧
      serializeInt 0 = some b3 :=
  getblockheaders_payload_shape.1 ⟨.number 42, 10, 0, false⟩
    (.list [.bytes [42], .bytes [10], .bytes [], .bytes []]) rfl

theorem serializeInt_of_nonneg {i : Int} (h : 0 ≤ i) :
    serializeInt i = some (beBytes i.toNat) ∧ deserializeInt (beBytes i.toNat) = some i := by
  have hs : serializeInt i = some (beBytes i.toNat) := by
    rw [serializeInt, if_neg (by omega)]
  exact ⟨hs, (serializeInt_eq_some hs).2.2⟩

/-- C5: for every supplied chain head, `send_handshake` builds and sends
a `Status` message whose five fields, in order, are exactly the
protocol's own version, the connection's configured network identifier,
and the head's total difficulty, block hash and genesis hash — witnessed
by the sent body decoding back to exactly that record. -/
theorem send_handshake_status_fields (st : ETHProtocol) (head_info : ChainInfo)
    (hnid : 0 ≤ st.peer.network_id) (htd : 0 ≤ head_info.total_difficulty) :
    ∃ body,
      Status.encode_payload
        ⟨(ETHProtocol.version : Int), st.peer.network_id, head_info.total_difficulty,
          head_info.block_hash, head_info.genesis_hash⟩ = some body ∧
      st.send_handshake head_info =
        .ok (st.send ⟨st.cmd_id_offset + Status._cmd_id⟩ body) ∧
      Status.decode_payload body =
        some ⟨(ETHProtocol.version : Int), st.peer.network_id, head_info.total_difficulty,
          head_info.block_hash, head_info.genesis_hash⟩ := by
  obtain ⟨hs1, hd1⟩ := serializeInt_of_nonneg
    (Int.natCast_nonneg ETHProtocol.version)
  obtain ⟨hs2, hd2⟩ := serializeInt_of_nonneg hnid
  obtain ⟨hs3, hd3⟩ := serializeInt_of_nonneg htd
  have henc : Status.encode_payload
      ⟨(ETHProtocol.version : Int), st.peer.network_id, head_info.total_difficulty,
        head_info.block_hash, head_info.genesis_hash⟩ =
      some (.list [.bytes (beBytes ((ETHProtocol.version : Int)).toNat),
        .bytes (beBytes st.peer.network_id.toNat),
        .bytes (beBytes head_info.total_difficulty.toNat),
        .bytes head_info.block_hash, .bytes head_info.genesis_hash]) := by
    simp [Status.encode_payload, hs1, hs2, hs3]
  have hd1' : deserializeInt (beBytes ETHProtocol.version) =
      some (ETHProtocol.version : Int) := by simpa using hd1
  refine ⟨_, henc, ?_, ?_⟩
  · simp only [ETHProtocol.send_handshake, henc]
  · simp [Status.decode_payload, hd1', hd2, hd3]

/-- C5 witness: the handshake fact at the concrete connection and chain
head fixtures. -/
theorem send_handshake_status_fields_witness :
    ∃ body,
      Status.encode_payload
        ⟨(ETHProtocol.version : Int), st0.peer.network_id, ci0.total_difficulty,
          ci0.block_hash, ci0.genesis_hash⟩ = some body ∧
      st0.send_handshake ci0 =
        .ok (st0.send ⟨st0.cmd_id_offset + Status._cmd_id⟩ body) ∧
      Status.decode_payload body =
        some ⟨(ETHProtocol.version : Int), st0.peer.network_id, ci0.total_difficulty,
          ci0.block_hash, ci0.genesis_hash⟩ :=
  send_handshake_status_fields st0 ci0 (by decide) (by decide)

/-! ### Claim about absolute wire command IDs -/

/-- C6: whenever a facade send operation succeeds, the header of the one
message it hands to the transport carries the absolute command ID
`base offset + identifier` of its Command Kind; this covers every
identifier in 0..16 with an assigned Command Kind that the facade can
send (0, 2, 3, 4, 5, 6, 13, 14, 15, 16 — kinds 1 and 7 have no facade
send operation, so no facade message can carry them). -/
theorem absolute_cmd_id_is_offset_plus_id :
    (∀ (st : ETHProtocol) (hi : ChainInfo) (st' : ETHProtocol),
      st.send_handshake hi = .ok st' →
      ∃ b, st'.sent = st.sent ++ [(⟨st.cmd_id_offset + Status._cmd_id⟩, b)]) ∧
    (∀ (st : ETHProtocol) (l : List BaseTransactionFields) (st' : ETHProtocol),
      st.send_transactions l = .ok st' →
      ∃ b, st'.sent = st.sent ++ [(⟨st.cmd_id_offset + Transactions._cmd_id⟩, b)]) ∧
    (∀ (st : ETHProtocol) (bnh : HashOrNumber) (mh sk : Int) (rv : Bool)
        (st' : ETHProtocol),
      st.send_get_block_headers bnh mh sk rv = .ok st' →
      ∃ b, st'.sent = st.sent ++ [(⟨st.cmd_id_offset + GetBlockHeaders._cmd_id⟩, b)]) ∧
    (∀ (st : ETHProtocol) (l : List BlockHeader) (st' : ETHProtocol),
      st.send_block_headers l = .ok st' →
      ∃ b, st'.sent = st.sent ++ [(⟨st.cmd_id_offset + BlockHeaders._cmd_id⟩, b)]) ∧
    (∀ (st : ETHProtocol) (l : List Bytes) (st' : ETHProtocol),
      st.send_get_block_bodies l = .ok st' →
      ∃ b, st'.sent = st.sent ++ [(⟨st.cmd_id_offset + GetBlockBodies._cmd_id⟩, b)]) ∧
    (∀ (st : ETHProtocol) (l : List BlockBody) (st' : ETHProtocol),
      st.send_block_bodies l = .ok st' →
      ∃ b, st'.sent = st.sent ++ [(⟨st.cmd_id_offset + BlockBodies._cmd_id⟩, b)]) ∧
    (∀ (st : ETHProtocol) (l : List Bytes) (st' : ETHProtocol),
      st.send_get_node_data l = .ok st' →
      ∃ b, st'.sent = st.sent ++ [(⟨st.cmd_id_offset + GetNodeData._cmd_id⟩, b)]) ∧
    (∀ (st : ETHProtocol) (l : List Bytes) (st' : ETHProtocol),
      st.send_node_data l = .ok st' →
      ∃ b, st'.sent = st.sent ++ [(⟨st.cmd_id_offset + NodeData._cmd_id⟩, b)]) ∧
    (∀ (st : ETHProtocol) (l : List Bytes) (st' : ETHProtocol),
      st.send_get_receipts l = .ok st' →
      ∃ b, st'.sent = st.sent ++ [(⟨st.cmd_id_offset + GetReceipts._cmd_id⟩, b)]) ∧
    (∀ (st : ETHProtocol) (l : List (List Receipt)) (st' : ETHProtocol),
      st.send_receipts l = .ok st' →
      ∃ b, st'.sent = st.sent ++ [(⟨st.cmd_id_offset + Receipts._cmd_id⟩, b)]) := by
  refine ⟨?_, ?_, ?_, ?_, ?_, ?_, ?_, ?_, ?_, ?_⟩
  · intro st hi st' h
    simp only [ETHProtocol.send_handshake] at h
    split at h
    · cases h
    · rename_i body heq
      injection h with h
      subst h
      exact ⟨body, by simp [ETHProtocol.send]⟩
  · intro st l st' h
    rw [ETHProtocol.send_transactions] at h
    injection h with h
    subst h
    exact ⟨Transactions.encode_payload l, by simp [ETHProtocol.send]⟩
  · intro st bnh mh sk rv st' h
    rw [ETHProtocol.send_get_block_headers] at h
    split at h
    · cases h
    · split at h
      · cases h
      · rename_i body heq
        injection h with h
        subst h
        exact ⟨body, by simp [ETHProtocol.send]⟩
  · intro st l st' h
    rw [ETHProtocol.send_block_headers] at h
    injection h with h
    subst h
    exact ⟨BlockHeaders.encode_payload l, by simp [ETHProtocol.send]⟩
  · intro st l st' h
    rw [ETHProtocol.send_get_block_bodies] at h
    injection h with h
    subst h
    exact ⟨GetBlockBodies.encode_payload l, by simp [ETHProtocol.send]⟩
  · intro st l st' h
    rw [ETHProtocol.send_block_bodies] at h
    injection h with h
    subst h
    exact ⟨BlockBodies.encode_payload l, by simp [ETHProtocol.send]⟩
  · intro st l st' h
    rw [ETHProtocol.send_get_node_data] at h
    injection h with h
    subst h
    exact ⟨GetNodeData.encode_payload l, by simp [ETHProtocol.send]⟩
  · intro st l st' h
    rw [ETHProtocol.send_node_data] at h
    injection h with h
    subst h
    exact ⟨NodeData.encode_payload l, by simp [ETHProtocol.send]⟩
  · intro st l st' h
    rw [ETHProtocol.send_get_receipts] at h
    injection h with h
    subst h
    exact ⟨GetReceipts.encode_payload l, by simp [ETHProtocol.send]⟩
  · intro st l st' h
    rw [ETHProtocol.send_receipts] at h
    injection h with h
    subst h
    exact ⟨Receipts.encode_payload l, by simp [ETHProtocol.send]⟩

/-- C6 witness: each facade operation applied at a concrete connection
with base offset 16 appends exactly one message whose header carries
`16 + identifier`. -/
theorem absolute_cmd_id_is_offset_plus_id_witness :
    (∃ b, (okState (st0.send_handshake ci0)).sent =
      st0.sent ++ [(⟨st0.cmd_id_offset + Status._cmd_id⟩, b)]) ∧
    (∃ b, (okState (st0.send_transactions [])).sent =
      st0.sent ++ [(⟨st0.cmd_id_offset + Transactions._cmd_id⟩, b)]) ∧
    (∃ b, (okState (st0.send_get_block_headers (.number 1) 1 0 false)).sent =
      st0.sent ++ [(⟨st0.cmd_id_offset + GetBlockHeaders._cmd_id⟩, b)]) ∧
    (∃ b, (okState (st0.send_block_headers [])).sent =
      st0.sent ++ [(⟨st0.cmd_id_offset + BlockHeaders._cmd_id⟩, b)]) ∧
    (∃ b, (okState (st0.send_get_block_bodies [])).sent =
      st0.sent ++ [(⟨st0.cmd_id_offset + GetBlockBodies._cmd_id⟩, b)]) ∧
    (∃ b, (okState (st0.send_block_bodies [])).sent =
      st0.sent ++ [(⟨st0.cmd_id_offset + BlockBodies._cmd_id⟩, b)]) ∧
    (∃ b, (okState (st0.send_get_node_data [])).sent =
      st0.sent ++ [(⟨st0.cmd_id_offset + GetNodeData._cmd_id⟩, b)]) ∧
    (∃ b, (okState (st0.send_node_data [])).sent =
      st0.sent ++ [(⟨st0.cmd_id_offset + NodeData._cmd_id⟩, b)]) ∧
    (∃ b, (okState (st0.send_get_receipts [])).sent =
      st0.sent ++ [(⟨st0.cmd_id_offset + GetReceipts._cmd_id⟩, b)]) ∧
    (∃ b, (okState (st0.send_receipts [])).sent =
      st0.sent ++ [(⟨st0.cmd_id_offset + Receipts._cmd_id⟩, b)]) :=
  ⟨absolute_cmd_id_is_offset_plus_id.1 st0 ci0 _ rfl,
   absolute_cmd_id_is_offset_plus_id.2.1 st0 [] _ rfl,
   absolute_cmd_id_is_offset_plus_id.2.2.1 st0 (.number 1) 1 0 false _ rfl,
   absolute_cmd_id_is_offset_plus_id.2.2.2.1 st0 [] _ rfl,
   absolute_cmd_id_is_offset_plus_id.2.2.2.2.1 st0 [] _ rfl,
   absolute_cmd_id_is_offset_plus_id.2.2.2.2.2.1 st0 [] _ rfl,
   absolute_cmd_id_is_offset_plus_id.2.2.2.2.2.2.1 st0 [] _ rfl,
   absolute_cmd_id_is_offset_plus_id.2.2.2.2.2.2.2.1 st0 [] _ rfl,
   absolute_cmd_id_is_offset_plus_id.2.2.2.2.2.2.2.2.1 st0 [] _ rfl,
   absolute_cmd_id_is_offset_plus_id.2.2.2.2.2.2.2.2.2 st0 [] _ rfl⟩

/-! ### Claim about encode/decode round trips -/

theorem map_mk_comp_item_txs (l : List BaseTransactionFields) :
    l.map (BaseTransactionFields.mk ∘ fun x => x.item) = l := by
  rw [← List.map_map]
  exact map_mk_map_item_txs l

theorem map_mk_comp_item_headers (l : List BlockHeader) :
    l.map (BlockHeader.mk ∘ fun x => x.item) = l := by
  rw [← List.map_map]
  exact map_mk_map_item_headers l

theorem map_mk_comp_item_bodies (l : List BlockBody) :
    l.map (BlockBody.mk ∘ fun x => x.item) = l := by
  rw [← List.map_map]
  exact map_mk_map_item_bodies l

theorem decodeBinaryList_encodeBinaryList (l : List Bytes) :
    decodeBinaryList (encodeBinaryList l) = some l := by
  show decodeEach (fun it =>
      match it with
      | .bytes b => some b
      | _ => none) (l.map .bytes) = some l
  exact decodeEach_map Item.bytes
    (fun it =>
      match it with
      | .bytes b => some b
      | _ => none) (fun _ => rfl) l

/-- C3 counterexample: the hash-or-number field of `GetBlockHeaders` is
untagged on the wire, so the well-formed integer `256 ^ 31` (whose
canonical serialization is exactly 32 bytes) encodes successfully but
decodes as the 32-byte hash `0x01 00...00`, not as the integer: decode
of encode is not the identity on this well-formed value. -/
theorem roundtrip_fails_for_wide_number :
    GetBlockHeaders.encode_payload ⟨.number ((256 : Int) ^ 31), 10, 0, false⟩ =
      some (.list [.bytes (1 :: List.replicate 31 0), .bytes [10], .bytes [], .bytes []]) ∧
    GetBlockHeaders.decode_payload
        (.list [.bytes (1 :: List.replicate 31 0), .bytes [10], .bytes [], .bytes []]) =
      some ⟨.hash (1 :: List.replicate 31 0), 10, 0, false⟩ ∧
    GetBlockHeaders.decode_payload
        (.list [.bytes (1 :: List.replicate 31 0), .bytes [10], .bytes [], .bytes []]) ≠
      some ⟨.number ((256 : Int) ^ 31), 10, 0, false⟩ :=
  ⟨rfl, rfl, by decide⟩

/-- C3 (amended): for every supported message kind,
`decode(encode(value)) = value` for every well-formed value conforming
to the kind's declared shape, where for the untagged hash-or-number
field the hash arm is the declared 32 bytes and the number arm is below
`256 ^ 31` (so that its canonical serialization stays shorter than 32
bytes and cannot collide with the hash arm — the counterexample shows
the identity fails at `256 ^ 31` and above). -/
theorem decode_encode_roundtrip :
    (∀ (s : StatusData) (e : Item), Status.encode_payload s = some e →
      Status.decode_payload e = some s) ∧
    (∀ (l : List (Bytes × Int)) (e : Item), NewBlockHashes.encode_payload l = some e →
      NewBlockHashes.decode_payload e = some l) ∧
    (∀ l : List BaseTransactionFields,
      Transactions.decode_payload (Transactions.encode_payload l) = some l) ∧
    (∀ (d : GetBlockHeadersData) (e : Item), WfHashOrNumber d.block_number_or_hash →
      GetBlockHeaders.encode_payload d = some e →
      GetBlockHeaders.decode_payload e = some d) ∧
    (∀ l : List BlockHeader,
      BlockHeaders.decode_payload (BlockHeaders.encode_payload l) = some l) ∧
    (∀ l : List Bytes,
      GetBlockBodies.decode_payload (GetBlockBodies.encode_payload l) = some l) ∧
    (∀ l : List BlockBody,
      BlockBodies.decode_payload (BlockBodies.encode_payload l) = some l) ∧
    (∀ (d : NewBlockData) (e : Item), NewBlock.encode_payload d = some e →
      NewBlock.decode_payload e = some d) ∧
    (∀ l : List Bytes,
      GetNodeData.decode_payload (GetNodeData.encode_payload l) = some l) ∧
    (∀ l : List Bytes,
      NodeData.decode_payload (NodeData.encode_payload l) = some l) ∧
    (∀ l : List Bytes,
      GetReceipts.decode_payload (GetReceipts.encode_payload l) = some l) ∧
    (∀ l : List (List Receipt),
      Receipts.decode_payload (Receipts.encode_payload l) = some l) := by
  refine ⟨?_, ?_, ?_, ?_, ?_, ?_, ?_, ?_, ?_, ?_, ?_, ?_⟩
  · -- Status
    intro s e he
    cases h1 : serializeInt s.protocol_version with
    | none => simp [Status.encode_payload, h1] at he
    | some b1 =>
      cases h2 : serializeInt s.network_id with
      | none => simp [Status.encode_payload, h1, h2] at he
      | some b2 =>
        cases h3 : serializeInt s.td with
        | none => simp [Status.encode_payload, h1, h2, h3] at he
        | some b3 =>
          have he' : e = .list [.bytes b1, .bytes b2, .bytes b3,
              .bytes s.best_hash, .bytes s.genesis_hash] := by
            simp [Status.encode_payload, h1, h2, h3] at he
            exact he.symm
          subst he'
          simp [Status.decode_payload, (serializeInt_eq_some h1).2.2,
            (serializeInt_eq_some h2).2.2, (serializeInt_eq_some h3).2.2]
  · -- NewBlockHashes
    intro l e he
    cases hee : encodeEach
        (fun p => (serializeInt p.2).map (fun nb => Item.list [.bytes p.1, .bytes nb])) l with
    | none => rw [NewBlockHashes.encode_payload, hee] at he; cases he
    | some el =>
      rw [NewBlockHashes.encode_payload, hee] at he
      injection he with he
      subst he
      refine decodeEach_encodeEach _ _ ?_ l el hee
      intro p y hy
      cases hs : serializeInt p.2 with
      | none => rw [hs] at hy; cases hy
      | some nb =>
        rw [hs] at hy
        injection hy with hy
        subst hy
        simp [(serializeInt_eq_some hs).2.2]
  · -- Transactions
    intro l
    simp [Transactions.encode_payload, Transactions.decode_payload,
      map_mk_map_item_txs, map_mk_comp_item_txs]
  · -- GetBlockHeaders
    intro d e hwf he
    cases hb : serializeHashOrNumber d.block_number_or_hash with
    | none => simp [GetBlockHeaders.encode_payload, hb] at he
    | some b1 =>
      cases hm : serializeInt d.max_headers with
      | none => simp [GetBlockHeaders.encode_payload, hb, hm] at he
      | some b2 =>
        cases hs : serializeInt d.skip with
        | none => simp [GetBlockHeaders.encode_payload, hb, hm, hs] at he
        | some b3 =>
          have he' : e = .list [.bytes b1, .bytes b2, .bytes b3,
              .bytes (serializeBool d.reverse)] := by
            simp [GetBlockHeaders.encode_payload, hb, hm, hs] at he
            exact he.symm
          subst he'
          simp [GetBlockHeaders.decode_payload,
            deserializeHashOrNumber_serialize hwf hb,
            (serializeInt_eq_some hm).2.2, (serializeInt_eq_some hs).2.2,
            deserializeBool_serializeBool]
  · -- BlockHeaders
    intro l
    simp [BlockHeaders.encode_payload, BlockHeaders.decode_payload,
      map_mk_map_item_headers, map_mk_comp_item_headers]
  · -- GetBlockBodies
    exact decodeBinaryList_encodeBinaryList
  · -- BlockBodies
    intro l
    simp [BlockBodies.encode_payload, BlockBodies.decode_payload,
      map_mk_map_item_bodies, map_mk_comp_item_bodies]
  · -- NewBlock
    intro d e he
    cases ht : serializeInt d.total_difficulty with
    | none => simp [NewBlock.encode_payload, ht] at he
    | some tdb =>
      have he' : e = .list [.list [d.block_header.item,
          .list (d.block_transactions.map (·.item)),
          .list (d.block_uncles.map (·.item))], .bytes tdb] := by
        simp [NewBlock.encode_payload, ht] at he
        exact he.symm
      subst he'
      simp [NewBlock.decode_payload, (serializeInt_eq_some ht).2.2,
        map_mk_map_item_txs, map_mk_map_item_headers,
        map_mk_comp_item_txs, map_mk_comp_item_headers, mk_item_block_header]
  · -- GetNodeData
    exact decodeBinaryList_encodeBinaryList
  · -- NodeData
    exact decodeBinaryList_encodeBinaryList
  · -- GetReceipts
    exact decodeBinaryList_encodeBinaryList
  · -- Receipts
    intro l
    refine decodeEach_map _ _ ?_ l
    intro inner
    show some ((inner.map (·.item)).map Receipt.mk) = some inner
    rw [map_mk_map_item_receipts]

/-- C3 witness: round trip evaluated at concrete well-formed values of
the four fallibly-encoded kinds. -/
theorem decode_encode_roundtrip_witness :
    (Status.decode_payload (.list [.bytes [63], .bytes [1], .bytes [5],
        .bytes (List.replicate 32 7), .bytes (List.replicate 32 9)]) =
      some ⟨63, 1, 5, List.replicate 32 7, List.replicate 32 9⟩) ∧
    (NewBlockHashes.decode_payload
        (.list [.list [.bytes (List.replicate 32 3), .bytes [9]]]) =
      some [(List.replicate 32 3, 9)]) ∧
    (GetBlockHeaders.decode_payload
        (.list [.bytes [42], .bytes [10], .bytes [], .bytes []]) =
      some ⟨.number 42, 10, 0, false⟩) ∧
    (NewBlock.decode_payload (.list [.list [.bytes [1], .list [], .list []], .bytes [7]]) =
      some ⟨⟨.bytes [1]⟩, [], [], 7⟩) :=
  ⟨decode_encode_roundtrip.1 ⟨63, 1, 5, List.replicate 32 7, List.replicate 32 9⟩ _ rfl,
   decode_encode_roundtrip.2.1 [(List.replicate 32 3, 9)] _ rfl,
   decode_encode_roundtrip.2.2.2.1 ⟨.number 42, 10, 0, false⟩ _ (by norm_num [WfHashOrNumber]) rfl,
   decode_encode_roundtrip.2.2.2.2.2.2.2.1 ⟨⟨.bytes [1]⟩, [], [], 7⟩ _ rfl⟩

end EthP2P
